import Mathlib

/-!
Shallow embedding of the tile-processing core of opendoor-labs/mapbox-gl-js:
bucket element-group management (`src/js/data/bucket.js`), circle
tessellation (`CircleBucket` in `src/js/render/draw_circle.js`), the worker
tile parse orchestration and the patched binary-search feature sorter
(`src/unnamed/part_000`), and the feature-tree spatial query primitives
(`src/js/data/feature_tree.js`).  JavaScript numbers that only ever hold
integers are modelled as `Nat`/`Int`; the geometric narrow-phase primitives,
which divide, are modelled over `ℚ`.  JavaScript `null`/`undefined` is
modelled with `Option`.
-/

namespace MapboxGL

/-! ### Element groups and `Bucket.prototype.makeRoomFor`
Source: `src/js/data/bucket.js` lines 114-138 and `src/unnamed/part_001`
lines 138-156 (the two copies implement the same logic; `part_001` builds an
`ElementGroup(vertexStartIndex, elementStartIndex, secondElementStartIndex)`
with all three lengths zero).  A missing element/secondElement buffer makes
the corresponding start index `undefined` (`elementBuffer &&
elementBuffer.length`), modelled as `Option Nat`. -/

structure ElementGroup where
  vertexStartIndex : Nat
  elementStartIndex : Option Nat
  secondElementStartIndex : Option Nat
  elementLength : Nat
  vertexLength : Nat
  secondElementLength : Nat
  deriving Repr, DecidableEq

/-- State visible to `makeRoomFor` for one shader/program name: the list of
element groups for that name, and the current lengths of the backing
buffers (a missing buffer is `none`). -/
structure BucketState where
  groups : List ElementGroup
  vertexBufferLen : Nat
  elementBufferLen : Option Nat
  secondElementBufferLen : Option Nat
  deriving Repr, DecidableEq

/-- Fresh group appended by `makeRoomFor`: starts at the current buffer
lengths with all lengths zero (`new ElementGroup(vertexBuffer.length,
elementBuffer && elementBuffer.length, secondElementBuffer &&
secondElementBuffer.length)`). -/
def freshGroup (s : BucketState) : ElementGroup :=
  ⟨s.vertexBufferLen, s.elementBufferLen, s.secondElementBufferLen, 0, 0, 0⟩

/-- Model of `Bucket.prototype.makeRoomFor(shaderName, numVertices)`:
`currentGroup = groups.length && groups[groups.length - 1]`; if there is no
current group or `currentGroup.vertexLength + numVertices > 65535`, a fresh
group is appended; the current (always the last) group is returned. -/
def makeRoomFor (s : BucketState) (numVertices : Nat) : ElementGroup × BucketState :=
  match s.groups.getLast? with
  | some currentGroup =>
    if currentGroup.vertexLength + numVertices > 65535 then
      (freshGroup s, { s with groups := s.groups ++ [freshGroup s] })
    else
      (currentGroup, s)
  | none =>
    (freshGroup s, { s with groups := s.groups ++ [freshGroup s] })

/-- Replace the last element of a list by `f` applied to it (models in-place
mutation of the group object returned by `makeRoomFor`). -/
def updateLast (f : ElementGroup → ElementGroup) : List ElementGroup → List ElementGroup
  | [] => []
  | [g] => [f g]
  | g :: g' :: rest => g :: updateLast f (g' :: rest)

/-- One `makeRoomFor(name, n)` call followed by the caller appending `n`
vertices to the returned group (`group.vertexLength += n`) and pushing the
`n` vertices onto the vertex buffer. -/
def roomStep (s : BucketState) (n : Nat) : BucketState :=
  let s' := (makeRoomFor s n).2
  { s' with
    groups := updateLast (fun g => { g with vertexLength := g.vertexLength + n }) s'.groups,
    vertexBufferLen := s'.vertexBufferLen + n }

/-- Run a sequence of `makeRoomFor`-then-add-vertices steps. -/
def runRoom (ns : List Nat) (s : BucketState) : BucketState :=
  ns.foldl roomStep s

/-- Invariant claimed by the spec: every element group's vertex count is at
most 65535. -/
def groupsBounded (s : BucketState) : Prop :=
  ∀ g ∈ s.groups, g.vertexLength ≤ 65535

/-- Bucket state at the start of `populateBuffers` for a shader whose
interface has all three buffers: no groups, empty buffers. -/
def initBucketState : BucketState :=
  ⟨[], 0, some 0, some 0⟩

lemma updateLast_append (f : ElementGroup → ElementGroup) :
    ∀ (l : List ElementGroup) (g : ElementGroup), updateLast f (l ++ [g]) = l ++ [f g]
  | [], _ => rfl
  | [_], _ => rfl
  | a :: b :: l, g => by
    have ih := updateLast_append f (b :: l) g
    simpa [updateLast] using ih

lemma roomStep_bounded {s : BucketState} {n : Nat}
    (hs : groupsBounded s) (hn : n ≤ 65535) : groupsBounded (roomStep s n) := by
  unfold roomStep makeRoomFor
  cases hl : s.groups.getLast? with
  | none =>
    have hnil : s.groups = [] := List.getLast?_eq_none_iff.mp hl
    intro g hg
    simp only [hnil, List.nil_append, updateLast] at hg
    simp only [List.mem_singleton] at hg
    subst hg
    simpa [freshGroup] using hn
  | some last =>
    obtain ⟨l', hsplit⟩ := List.getLast?_eq_some_iff.mp hl
    by_cases hfull : last.vertexLength + n > 65535
    · simp only [hfull, if_pos, gt_iff_lt]
      intro g hg
      simp only [updateLast_append] at hg
      rcases List.mem_append.mp hg with hmem | hmem
      · exact hs g hmem
      · simp only [List.mem_singleton] at hmem
        subst hmem
        simpa [freshGroup] using hn
    · simp only [gt_iff_lt, if_neg (by omega : ¬ 65535 < last.vertexLength + n)]
      intro g hg
      rw [hsplit, updateLast_append] at hg
      rcases List.mem_append.mp hg with hmem | hmem
      · exact hs g (by rw [hsplit]; exact List.mem_append_left _ hmem)
      · simp only [List.mem_singleton] at hmem
        subst hmem
        simp only
        omega

lemma runRoom_bounded :
    ∀ (ns : List Nat) (s : BucketState), groupsBounded s → (∀ n ∈ ns, n ≤ 65535) →
      groupsBounded (runRoom ns s)
  | [], s, hs, _ => hs
  | n :: ns, s, hs, hb => by
    have hstep := roomStep_bounded hs (hb n (List.mem_cons_self n ns))
    have := runRoom_bounded ns (roomStep s n) hstep
      (fun m hm => hb m (List.mem_cons_of_mem n hm))
    simpa [runRoom] using this

/-- C1: for every bucket and shader name, after any sequence of
`makeRoomFor(name, n)` calls with each `n ≤ 65535`, the caller then adding
`n` vertices to the returned group, every element group's `vertexLength`
never exceeds 65535; moreover `makeRoomFor` returns the current last group
when it has room for `n` more vertices, and otherwise appends a fresh group
with `vertexLength` 0 starting at the current buffer lengths. -/
theorem makeRoomFor_groups_bounded :
    (∀ (s : BucketState) (n : Nat) (g : ElementGroup),
      s.groups.getLast? = some g → g.vertexLength + n ≤ 65535 →
      makeRoomFor s n = (g, s)) ∧
    (∀ (s : BucketState) (n : Nat),
      (∀ g, s.groups.getLast? = some g → g.vertexLength + n > 65535) →
      makeRoomFor s n =
        (freshGroup s, { s with groups := s.groups ++ [freshGroup s] }) ∧
      (freshGroup s).vertexLength = 0 ∧
      (freshGroup s).vertexStartIndex = s.vertexBufferLen ∧
      (freshGroup s).elementStartIndex = s.elementBufferLen) ∧
    (∀ ns : List Nat, (∀ n ∈ ns, n ≤ 65535) →
      groupsBounded (runRoom ns initBucketState)) := by
  refine ⟨?_, ?_, ?_⟩
  · intro s n g hl hroom
    unfold makeRoomFor
    rw [hl]
    simp only [gt_iff_lt, if_neg (by omega : ¬ 65535 < g.vertexLength + n)]
  · intro s n hfull
    refine ⟨?_, rfl, rfl, rfl⟩
    unfold makeRoomFor
    cases hl : s.groups.getLast? with
    | none => rfl
    | some g =>
      have hgt := hfull g hl
      simp [hgt]
  · intro ns hb
    exact runRoom_bounded ns initBucketState
      (by intro g hg; simp [initBucketState] at hg) hb

/-- Witness for C1 at a concrete input: two `makeRoomFor` steps of 65535
and 1 vertices starting from the initial state. -/
theorem makeRoomFor_groups_bounded_witness :
    groupsBounded (runRoom [65535, 1] initBucketState) := by
  apply makeRoomFor_groups_bounded.2.2
  decide

/-! ### Circle tessellation
Source: `CircleBucket` in `src/js/render/draw_circle.js` lines 159-242.
`addCircleVertex(x, y, extrudeX, extrudeY)` emplaces
`((x * 2) + ((extrudeX + 1) / 2), (y * 2) + ((extrudeY + 1) / 2))` on the
`circleVertex` array and (as struct arrays do) returns the index of the new
entry; `addFeature` iterates the loaded geometry rings, drops points outside
`[0, EXTENT)`, and per surviving point calls `makeRoomFor('circle', 4)`,
adds a quad of 4 vertices and 2 triangles, and bumps the group counters.
The model state carries the `circleVertex` and `circleElement` arrays and
the `circle` element groups; paint-attribute baking (`addPaintAttributes`)
touches neither of these and is omitted. -/

def EXTENT : Int := 8192

/-- Per-tile circle tessellation state: the positions array, the triangle
index array and the element groups of the `circle` program. -/
structure CircleState where
  circleVertex : List (Int × Int)
  circleElement : List (Int × Int × Int)
  circleGroups : List ElementGroup
  deriving Repr, DecidableEq

/-- View of a `CircleState` as the state `makeRoomFor` reads: the `circle`
interface has a vertex buffer and an element buffer but no second element
buffer. -/
def circleBucketState (s : CircleState) : BucketState :=
  ⟨s.circleGroups, s.circleVertex.length, some s.circleElement.length, none⟩

/-- Model of `CircleBucket.prototype.addCircleVertex`: emplaces the encoded
position and returns the index of the new entry. -/
def addCircleVertex (verts : List (Int × Int)) (x y extrudeX extrudeY : Int) :
    List (Int × Int) × Int :=
  (verts ++ [(x * 2 + (extrudeX + 1) / 2, y * 2 + (extrudeY + 1) / 2)],
   (verts.length : Int))

/-- Quad of encoded vertices produced for one in-range point, in call order
`(-1,-1), (1,-1), (1,1), (-1,1)`. -/
def circleQuad (x y : Int) : List (Int × Int) :=
  [(x * 2, y * 2), (x * 2 + 1, y * 2), (x * 2 + 1, y * 2 + 1), (x * 2, y * 2 + 1)]

/-- Loop body of `CircleBucket.prototype.addFeature` for one geometry point:
points outside `[0, EXTENT)` are skipped (`continue`), otherwise
`makeRoomFor('circle', 4)` is called, four encoded vertices and two
triangles are appended, and the returned group's `vertexLength` and
`elementLength` grow by 4 and 2. -/
def processPoint (s : CircleState) (p : Int × Int) : CircleState :=
  if p.1 < 0 ∨ p.1 ≥ EXTENT ∨ p.2 < 0 ∨ p.2 ≥ EXTENT then s
  else
    let mk := makeRoomFor (circleBucketState s) 4
    let group := mk.1
    let v0 := addCircleVertex s.circleVertex p.1 p.2 (-1) (-1)
    let index := v0.2 - (group.vertexStartIndex : Int)
    let v1 := addCircleVertex v0.1 p.1 p.2 1 (-1)
    let v2 := addCircleVertex v1.1 p.1 p.2 1 1
    let v3 := addCircleVertex v2.1 p.1 p.2 (-1) 1
    { circleVertex := v3.1,
      circleElement := s.circleElement ++
        [(index, index + 1, index + 2), (index, index + 3, index + 2)],
      circleGroups := updateLast
        (fun g => { g with vertexLength := g.vertexLength + 4,
                           elementLength := g.elementLength + 2 })
        mk.2.groups }

/-- Model of `CircleBucket.prototype.addFeature`: iterate all rings of the
loaded geometry, processing each point in order. -/
def addFeature (geometries : List (List (Int × Int))) (s : CircleState) : CircleState :=
  geometries.foldl (fun acc ring => ring.foldl processPoint acc) s

/-- A point is inside the tile boundaries, `[0, EXTENT)` on both axes: the
negation of the skip condition of `addFeature`. -/
def inRange (p : Int × Int) : Bool :=
  decide (¬ (p.1 < 0 ∨ p.1 ≥ EXTENT ∨ p.2 < 0 ∨ p.2 ≥ EXTENT))

/-- Total vertex count over all circle element groups. -/
def totalVertexLength (s : CircleState) : Nat :=
  (s.circleGroups.map ElementGroup.vertexLength).sum

/-- Total triangle count over all circle element groups. -/
def totalElementLength (s : CircleState) : Nat :=
  (s.circleGroups.map ElementGroup.elementLength).sum

lemma makeRoomFor_snd_groups_ne_nil (s : BucketState) (n : Nat) :
    (makeRoomFor s n).2.groups ≠ [] := by
  unfold makeRoomFor
  cases hl : s.groups.getLast? with
  | none => simp
  | some g =>
    by_cases h : g.vertexLength + n > 65535
    · simp [h]
    · simp only [h, if_neg, ite_false]
      intro hnil
      rw [hnil] at hl
      simp at hl

lemma makeRoomFor_sum (φ : ElementGroup → Nat) (hφ : ∀ t, φ (freshGroup t) = 0)
    (s : BucketState) (n : Nat) :
    (((makeRoomFor s n).2.groups).map φ).sum = ((s.groups).map φ).sum := by
  unfold makeRoomFor
  cases hl : s.groups.getLast? with
  | none => simp [hφ]
  | some g =>
    by_cases h : g.vertexLength + n > 65535
    · simp [h, hφ]
    · simp [h]

lemma sum_map_updateLast (φ : ElementGroup → Nat) (f : ElementGroup → ElementGroup)
    (a : Nat) (hf : ∀ g, φ (f g) = φ g + a) :
    ∀ l : List ElementGroup, l ≠ [] →
      ((updateLast f l).map φ).sum = (l.map φ).sum + a
  | [], h => absurd rfl h
  | [g], _ => by simp [updateLast, hf]
  | g :: g' :: rest, _ => by
    have ih := sum_map_updateLast φ f a hf (g' :: rest) (by simp)
    simp [updateLast, ih]
    omega

/-- C5: each geometry point inside `[0, EXTENT)` contributes exactly the
4-vertex quad with positions encoded as `coordinate * 2 + (extrusion + 1) / 2`
for extrusions in `{-1, +1}`, exactly 2 triangles (6 indices), and grows the
group vertex count by exactly 4 and the group triangle count by exactly 2. -/
theorem circle_in_range_point_effect :
    ∀ (s : CircleState) (x y : Int),
      0 ≤ x → x < EXTENT → 0 ≤ y → y < EXTENT →
      (processPoint s (x, y)).circleVertex = s.circleVertex ++ circleQuad x y ∧
      (processPoint s (x, y)).circleElement.length = s.circleElement.length + 2 ∧
      totalVertexLength (processPoint s (x, y)) = totalVertexLength s + 4 ∧
      totalElementLength (processPoint s (x, y)) = totalElementLength s + 2 := by
  intro s x y hx0 hx1 hy0 hy1
  have hcond : ¬ ((x : Int) < 0 ∨ x ≥ EXTENT ∨ y < 0 ∨ y ≥ EXTENT) := by
    push_neg
    exact ⟨hx0, hx1, hy0, hy1⟩
  have hne := makeRoomFor_snd_groups_ne_nil (circleBucketState s) 4
  refine ⟨?_, ?_, ?_, ?_⟩
  · simp only [processPoint, if_neg hcond, addCircleVertex, circleQuad]
    norm_num [List.append_assoc]
  · simp only [processPoint, if_neg hcond]
    simp
  · simp only [totalVertexLength, processPoint, if_neg hcond]
    rw [sum_map_updateLast ElementGroup.vertexLength _ 4 (fun g => rfl) _ hne]
    rw [makeRoomFor_sum ElementGroup.vertexLength (fun t => rfl)]
    rfl
  · simp only [totalElementLength, processPoint, if_neg hcond]
    rw [sum_map_updateLast ElementGroup.elementLength _ 2 (fun g => rfl) _ hne]
    rw [makeRoomFor_sum ElementGroup.elementLength (fun t => rfl)]
    rfl

/-- Witness for C5 at a concrete input: the point `(3, 5)` processed from the
empty circle state. -/
theorem circle_in_range_point_effect_witness :
    (processPoint ⟨[], [], []⟩ (3, 5)).circleVertex = [] ++ circleQuad 3 5 ∧
    (processPoint ⟨[], [], []⟩ (3, 5)).circleElement.length = ([] : List (Int × Int × Int)).length + 2 ∧
    totalVertexLength (processPoint ⟨[], [], []⟩ (3, 5)) = totalVertexLength ⟨[], [], []⟩ + 4 ∧
    totalElementLength (processPoint ⟨[], [], []⟩ (3, 5)) = totalElementLength ⟨[], [], []⟩ + 2 :=
  circle_in_range_point_effect ⟨[], [], []⟩ 3 5 (by decide) (by decide) (by decide) (by decide)

lemma foldl_processPoint_filter :
    ∀ (l : List (Int × Int)) (s : CircleState),
      l.foldl processPoint s = (l.filter inRange).foldl processPoint s
  | [], _ => rfl
  | p :: l, s => by
    by_cases h : p.1 < 0 ∨ p.1 ≥ EXTENT ∨ p.2 < 0 ∨ p.2 ≥ EXTENT
    · have hskip : processPoint s p = s := by simp [processPoint, h]
      have hf : inRange p = false := by simp [inRange, h]
      simp only [List.foldl_cons, hskip, List.filter_cons, hf]
      exact foldl_processPoint_filter l s
    · have hf : inRange p = true := by simp [inRange]; omega
      simp only [List.foldl_cons, List.filter_cons, hf]
      exact foldl_processPoint_filter l (processPoint s p)

/-- C6: a geometry point outside `[0, EXTENT)` is dropped silently at point
granularity — processing it leaves the whole circle state unchanged — and
`addFeature` tessellates exactly the in-range points of the feature, in
order. -/
theorem circle_out_of_range_point_dropped :
    (∀ (s : CircleState) (p : Int × Int),
      (p.1 < 0 ∨ p.1 ≥ EXTENT ∨ p.2 < 0 ∨ p.2 ≥ EXTENT) → processPoint s p = s) ∧
    (∀ (geometries : List (List (Int × Int))) (s : CircleState),
      addFeature geometries s =
        (geometries.flatten.filter inRange).foldl processPoint s) := by
  constructor
  · intro s p h
    simp [processPoint, h]
  · intro geometries s
    rw [← foldl_processPoint_filter]
    rw [List.foldl_flatten]
    rfl

/-- Witness for C6 at a concrete input: the out-of-range point `(-1, 3)` is
dropped from the empty circle state. -/
theorem circle_out_of_range_point_dropped_witness :
    processPoint ⟨[], [], []⟩ (-1, 3) = ⟨[], [], []⟩ :=
  circle_out_of_range_point_dropped.1 ⟨[], [], []⟩ (-1, 3) (by decide)


/-! ### Feature-tree narrow-phase geometry primitives
Source: `src/js/data/feature_tree.js` lines 377-399.  These operate on
JavaScript floating-point numbers; the algorithms are modelled exactly over
`ℚ`. -/

/-- Planar point with rational coordinates (models `point-geometry`). -/
structure QPoint where
  x : ℚ
  y : ℚ
  deriving DecidableEq

/-- Squared distance between two points (`Point.prototype.distSqr`). -/
def distSqr (p q : QPoint) : ℚ :=
  (p.x - q.x) * (p.x - q.x) + (p.y - q.y) * (p.y - q.y)

/-- Model of `distToSegmentSquared(p, v, w)`: squared distance from `p` to
the segment `v w`, guarding the zero-length-segment case before dividing by
the segment's squared length. -/
def distToSegmentSquared (p v w : QPoint) : ℚ :=
  let l2 := distSqr v w
  if l2 = 0 then distSqr p v
  else
    let t := ((p.x - v.x) * (w.x - v.x) + (p.y - v.y) * (w.y - v.y)) / l2
    if t < 0 then distSqr p v
    else if t > 1 then distSqr p w
    else distSqr p ⟨(w.x - v.x) * t + v.x, (w.y - v.y) * t + v.y⟩

/-- Segment loop of `pointIntersectsBufferedLine`: for `i` from 1 to
`line.length - 1`, test the segment `(line[i-1], line[i])` against the
squared radius with strict `<`. -/
def piblLoop (p : QPoint) : List QPoint → ℚ → Bool
  | v :: w :: rest, radiusSquared =>
    decide (distToSegmentSquared p v w < radiusSquared) || piblLoop p (w :: rest) radiusSquared
  | _, _ => false

/-- Model of `pointIntersectsBufferedLine(p, line, radius)`: a single-point
line is tested by point distance, otherwise every consecutive segment is
tested; the comparison is strict in both cases. -/
def pointIntersectsBufferedLine (p : QPoint) (line : List QPoint) (radius : ℚ) : Bool :=
  let radiusSquared := radius * radius
  match line with
  | [v] => decide (distSqr p v < radiusSquared)
  | _ => piblLoop p line radiusSquared

lemma piblLoop_iff (p : QPoint) (r2 : ℚ) :
    ∀ line : List QPoint,
      piblLoop p line r2 = true ↔
        ∃ vw ∈ line.zip line.tail, distToSegmentSquared p vw.1 vw.2 < r2
  | [] => by simp [piblLoop]
  | [v] => by simp [piblLoop]
  | v :: w :: rest => by
    have ih := piblLoop_iff p r2 (w :: rest)
    simp only [piblLoop, Bool.or_eq_true, decide_eq_true_eq, ih,
      List.tail_cons, List.zip_cons_cons, List.mem_cons]
    constructor
    · rintro (h | ⟨vw, hmem, hlt⟩)
      · exact ⟨(v, w), Or.inl rfl, h⟩
      · exact ⟨vw, Or.inr hmem, hlt⟩
    · rintro ⟨vw, hmem | hmem, hlt⟩
      · rw [hmem] at hlt
        exact Or.inl hlt
      · exact Or.inr ⟨vw, hmem, hlt⟩

/-- C7: the buffered-line-contains-point test holds exactly when some
segment of the line (or its single point, when the line has length 1) lies
at squared distance strictly less than the squared radius from `p`; squared
distance equal to the squared radius is not an intersection. -/
theorem pointIntersectsBufferedLine_iff :
    ∀ (p : QPoint) (line : List QPoint) (radius : ℚ),
      pointIntersectsBufferedLine p line radius = true ↔
        ((∃ v, line = [v] ∧ distSqr p v < radius * radius) ∨
         (line.length ≠ 1 ∧ ∃ vw ∈ line.zip line.tail,
            distToSegmentSquared p vw.1 vw.2 < radius * radius)) := by
  intro p line radius
  match line with
  | [] => simp [pointIntersectsBufferedLine, piblLoop]
  | [v] => simp [pointIntersectsBufferedLine]
  | v :: w :: rest =>
    rw [show pointIntersectsBufferedLine p (v :: w :: rest) radius =
        piblLoop p (v :: w :: rest) (radius * radius) from rfl]
    rw [piblLoop_iff]
    simp

/-- C10: the point-to-segment squared-distance primitive is total: for a
zero-length segment (`v = w`) it returns the squared distance to `v`
without dividing, and whenever `v ≠ w` the squared segment length `l2` it
divides by is non-zero, so the division-by-zero case is unreachable. -/
theorem distToSegmentSquared_total :
    ∀ p v w : QPoint,
      (v = w → distToSegmentSquared p v w = distSqr p v) ∧
      (v ≠ w → distSqr v w ≠ 0) := by
  intro p v w
  constructor
  · intro h
    subst h
    simp [distToSegmentSquared, distSqr]
  · intro hne h0
    apply hne
    have hx : (v.x - w.x) * (v.x - w.x) = 0 := by
      nlinarith [mul_self_nonneg (v.x - w.x), mul_self_nonneg (v.y - w.y),
        (show (v.x - w.x) * (v.x - w.x) + (v.y - w.y) * (v.y - w.y) = 0 from h0)]
    have hy : (v.y - w.y) * (v.y - w.y) = 0 := by
      nlinarith [mul_self_nonneg (v.x - w.x), mul_self_nonneg (v.y - w.y),
        (show (v.x - w.x) * (v.x - w.x) + (v.y - w.y) * (v.y - w.y) = 0 from h0)]
    have hx0 : v.x = w.x := by
      have := mul_self_eq_zero.mp hx
      linarith
    have hy0 : v.y = w.y := by
      have := mul_self_eq_zero.mp hy
      linarith
    cases v
    cases w
    simp_all

/-- Witness for C10 at concrete inputs: a zero-length segment at `(1, 1)`
and the distinct endpoints `(0, 0)`, `(1, 0)`. -/
theorem distToSegmentSquared_total_witness :
    distToSegmentSquared ⟨0, 0⟩ ⟨1, 1⟩ ⟨1, 1⟩ = distSqr ⟨0, 0⟩ ⟨1, 1⟩ ∧
    distSqr (⟨0, 0⟩ : QPoint) ⟨1, 0⟩ ≠ 0 :=
  ⟨(distToSegmentSquared_total ⟨0, 0⟩ ⟨1, 1⟩ ⟨1, 1⟩).1 rfl,
   (distToSegmentSquared_total ⟨0, 0⟩ ⟨0, 0⟩ ⟨1, 0⟩).2 (by decide)⟩


/-! ### Worker tile parse orchestration
Source: `WorkerTile.prototype.parse` in `src/unnamed/part_000` lines
186-271.  When there is at least one symbol bucket, a `get glyphs` request
is always issued; a `get icons` request is issued only when the icon list
is non-empty, otherwise `gotDependency()` is invoked synchronously at issue
time.  Each completion runs `gotDependency(err)`: an error is forwarded to
the parse callback immediately, a success increments the `deps` counter,
and when `deps` reaches 2 the symbol buckets are tessellated in reverse
declaration order and `done()` fires the callback with the bucket result.
Symbol buckets are identified here by their declaration index. -/

/-- Parse-orchestration state: the completion counter, the symbol buckets
tessellated so far (in execution order), whether the callback has been
invoked with a bucket result, and the errors passed to the callback. -/
structure ParseState where
  deps : Nat
  parsed : List Nat
  doneResult : Bool
  cbErrors : List Nat
  deriving Repr, DecidableEq

/-- Model of `gotDependency(err)` for the symbol buckets `symbolBuckets`:
on error, call the parse callback with the error and stop; on success,
increment `deps`, and at `deps === 2` tessellate the symbol buckets in
reverse declaration order and invoke the callback with the result. -/
def gotDependency (symbolBuckets : List Nat) (s : ParseState) (err : Option Nat) :
    ParseState :=
  match err with
  | some e => { s with cbErrors := s.cbErrors ++ [e] }
  | none =>
    let deps := s.deps + 1
    if deps = 2 then
      { s with deps := deps, parsed := s.parsed ++ symbolBuckets.reverse,
               doneResult := true }
    else
      { s with deps := deps }

/-- Number of asynchronous dependency requests issued: the glyph request is
always sent; the icon request only when the icon list is non-empty. -/
def asyncRequestCount (icons : List Nat) : Nat :=
  if icons.isEmpty then 1 else 2

/-- Model of the symbol-dependency phase of `parse` for a tile with symbol
buckets: when the icon list is empty, `gotDependency()` is applied
synchronously at issue time (one completion); then the asynchronous
completions are processed in arrival order. -/
def runParse (symbolBuckets icons : List Nat) (arrivals : List (Option Nat)) :
    ParseState :=
  let s0 : ParseState := ⟨0, [], false, []⟩
  let s1 := if icons.isEmpty then gotDependency symbolBuckets s0 none else s0
  arrivals.foldl (gotDependency symbolBuckets) s1

/-- Total number of dependency completions processed, counting the
synchronous empty-icon completion. -/
def completionCount (icons : List Nat) (arrivals : List (Option Nat)) : Nat :=
  (if icons.isEmpty then 1 else 0) + arrivals.length

/-- C2: symbol tessellation does not happen before two dependency
completions have been processed (an empty icon list contributing one
synchronous completion), and at exactly two successful completions the
symbol buckets are tessellated in reverse declaration order. -/
theorem symbol_parse_two_completion_barrier :
    ∀ (symbolBuckets icons : List Nat) (arrivals : List (Option Nat)),
      symbolBuckets ≠ [] →
      (∀ a ∈ arrivals, a = none) →
      arrivals.length ≤ asyncRequestCount icons →
      (completionCount icons arrivals < 2 →
        (runParse symbolBuckets icons arrivals).parsed = []) ∧
      (completionCount icons arrivals = 2 →
        (runParse symbolBuckets icons arrivals).parsed = symbolBuckets.reverse) := by
  intro symbolBuckets icons arrivals _ hok hlen
  by_cases hicons : icons.isEmpty
  · simp only [asyncRequestCount, hicons, if_true] at hlen
    match arrivals, hlen with
    | [], _ =>
      constructor
      · intro _
        simp [runParse, hicons, gotDependency]
      · intro h
        simp [completionCount, hicons] at h
    | [a], _ =>
      have ha : a = none := hok a (List.mem_singleton.mpr rfl)
      subst ha
      constructor
      · intro h
        simp [completionCount, hicons] at h
      · intro _
        simp [runParse, hicons, gotDependency]
  · simp only [asyncRequestCount, hicons, if_false] at hlen
    match arrivals, hlen with
    | [], _ =>
      constructor
      · intro _
        simp [runParse, hicons]
      · intro h
        simp [completionCount, hicons] at h
    | [a], _ =>
      have ha : a = none := hok a (List.mem_singleton.mpr rfl)
      subst ha
      constructor
      · intro _
        simp [runParse, hicons, gotDependency]
      · intro h
        simp [completionCount, hicons] at h
    | [a, b], _ =>
      have ha : a = none := hok a (by simp)
      have hb : b = none := hok b (by simp)
      subst ha
      subst hb
      constructor
      · intro h
        simp [completionCount, hicons] at h
      · intro _
        simp [runParse, hicons, gotDependency]

/-- Witness for C2 at a concrete input: one symbol bucket, empty icon list,
and the single glyph completion arriving successfully. -/
theorem symbol_parse_two_completion_barrier_witness :
    (completionCount [] [(none : Option Nat)] < 2 →
      (runParse [0] [] [none]).parsed = []) ∧
    (completionCount [] [(none : Option Nat)] = 2 →
      (runParse [0] [] [none]).parsed = [0].reverse) :=
  symbol_parse_two_completion_barrier [0] [] [none]
    (by decide) (by decide) (by decide)

/-- C3: if any dependency completion carries an error, the parse callback
receives exactly the errors (in arrival order, so the first callback
invocation carries that error) and is never invoked with a bucket result. -/
theorem dependency_error_aborts_parse :
    ∀ (symbolBuckets icons : List Nat) (arrivals : List (Option Nat)),
      arrivals.length ≤ asyncRequestCount icons →
      (∃ e, some e ∈ arrivals) →
      (runParse symbolBuckets icons arrivals).doneResult = false ∧
      (runParse symbolBuckets icons arrivals).cbErrors = arrivals.reduceOption := by
  intro symbolBuckets icons arrivals hlen herr
  by_cases hicons : icons.isEmpty
  · simp only [asyncRequestCount, hicons, if_true] at hlen
    match arrivals, hlen with
    | [], _ =>
      obtain ⟨e, he⟩ := herr
      simp at he
    | [a], _ =>
      obtain ⟨e, he⟩ := herr
      simp only [List.mem_singleton] at he
      subst he
      simp [runParse, hicons, gotDependency, List.reduceOption]
  · simp only [asyncRequestCount, hicons, if_false] at hlen
    match arrivals, hlen with
    | [], _ =>
      obtain ⟨e, he⟩ := herr
      simp at he
    | [a], _ =>
      obtain ⟨e, he⟩ := herr
      simp only [List.mem_singleton] at he
      subst he
      simp [runParse, hicons, gotDependency, List.reduceOption]
    | [a, b], _ =>
      obtain ⟨e, he⟩ := herr
      rcases a with _ | ea
      · rcases b with _ | eb
        · simp at he
        · simp [runParse, hicons, gotDependency, List.reduceOption]
      · rcases b with _ | eb
        · simp [runParse, hicons, gotDependency, List.reduceOption]
        · simp [runParse, hicons, gotDependency, List.reduceOption]

/-- Witness for C3 at a concrete input: icons non-empty, glyph success then
icon error 7. -/
theorem dependency_error_aborts_parse_witness :
    (runParse [0] [1] [none, some 7]).doneResult = false ∧
    (runParse [0] [1] [none, some 7]).cbErrors = [none, some 7].reduceOption :=
  dependency_error_aborts_parse [0] [1] [none, some 7] (by decide) ⟨7, by decide⟩


/-! ### Deferred label-placement recompute
Source: `WorkerTile.prototype.redoPlacement` (`src/unnamed/part_000` lines
273-293) and the `done` continuation of `parse` (lines 258-270).  While the
tile's status is not `'done'`, `redoPlacement` records the requested angle,
raises the `redoPlacementAfterDone` flag and returns the empty object
without constructing a `CollisionTile` or touching any bucket; `done()`
first sets the status to `'done'`, then replays the deferred call with the
stored angle and the tile's pitch and clears the flag.  Placement execution
is modelled by recording the `(angle, pitch)` each constructed
`CollisionTile` is given. -/

/-- Tile parse status. -/
inductive TileStatus
  | unparsed
  | parsing
  | done
  deriving Repr, DecidableEq

/-- Worker-tile state relevant to `redoPlacement`: the status, the stored
camera angle and pitch, the pending-redo flag, and the record of placements
that have actually been executed (each entry is the angle/pitch a collision
structure was constructed with). -/
structure TileState where
  status : TileStatus
  angle : ℚ
  pitch : ℚ
  redoPlacementAfterDone : Bool
  placements : List (ℚ × ℚ)
  deriving Repr, DecidableEq

/-- Model of `WorkerTile.prototype.redoPlacement(angle, pitch,
showCollisionBoxes)`: before the tile is done, store the angle, raise the
flag and return the empty result (`none`); otherwise construct a collision
structure for `(angle, pitch)`, place every symbol bucket against it, and
return a non-empty result. -/
def redoPlacement (s : TileState) (angle pitch : ℚ) : Option (ℚ × ℚ) × TileState :=
  if s.status ≠ TileStatus.done then
    (none, { s with redoPlacementAfterDone := true, angle := angle })
  else
    (some (angle, pitch), { s with placements := s.placements ++ [(angle, pitch)] })

/-- Model of the `done()` continuation of `parse`: set the status to done,
then, if a redo was deferred, replay it with the stored angle and the
tile's pitch and clear the flag. -/
def doneStep (s : TileState) : TileState :=
  let s1 := { s with status := TileStatus.done }
  if s1.redoPlacementAfterDone then
    { (redoPlacement s1 s1.angle s1.pitch).2 with redoPlacementAfterDone := false }
  else
    s1

/-- C4: a `redoPlacement` issued before the tile is done returns the empty
result, stores the requested angle and raises the pending-redo flag
without executing any placement; when parsing then reaches `done`, the
deferred placement runs exactly once with the stored angle, and the flag is
cleared (so a further `done` transition runs no further placement). -/
theorem redoPlacement_deferred :
    ∀ (s : TileState) (angle pitch : ℚ),
      s.status ≠ TileStatus.done →
      (redoPlacement s angle pitch).1 = none ∧
      ((redoPlacement s angle pitch).2.angle = angle ∧
       (redoPlacement s angle pitch).2.redoPlacementAfterDone = true ∧
       (redoPlacement s angle pitch).2.placements = s.placements ∧
       (redoPlacement s angle pitch).2.status = s.status) ∧
      (doneStep (redoPlacement s angle pitch).2).placements
        = s.placements ++ [(angle, s.pitch)] ∧
      (doneStep (redoPlacement s angle pitch).2).redoPlacementAfterDone = false ∧
      (doneStep (redoPlacement s angle pitch).2).status = TileStatus.done ∧
      (doneStep (doneStep (redoPlacement s angle pitch).2)).placements
        = s.placements ++ [(angle, s.pitch)] := by
  intro s angle pitch hstatus
  simp [redoPlacement, doneStep, hstatus]

/-- Witness for C4 at a concrete input: a parsing tile receiving a deferred
redo request with angle 3 and pitch 2. -/
theorem redoPlacement_deferred_witness :
    (redoPlacement ⟨TileStatus.parsing, 0, 1, false, []⟩ 3 2).1 = none ∧
    ((redoPlacement ⟨TileStatus.parsing, 0, 1, false, []⟩ 3 2).2.angle = 3 ∧
     (redoPlacement ⟨TileStatus.parsing, 0, 1, false, []⟩ 3 2).2.redoPlacementAfterDone = true ∧
     (redoPlacement ⟨TileStatus.parsing, 0, 1, false, []⟩ 3 2).2.placements = [] ∧
     (redoPlacement ⟨TileStatus.parsing, 0, 1, false, []⟩ 3 2).2.status = TileStatus.parsing) ∧
    (doneStep (redoPlacement ⟨TileStatus.parsing, 0, 1, false, []⟩ 3 2).2).placements
      = [] ++ [(3, 1)] ∧
    (doneStep (redoPlacement ⟨TileStatus.parsing, 0, 1, false, []⟩ 3 2).2).redoPlacementAfterDone = false ∧
    (doneStep (redoPlacement ⟨TileStatus.parsing, 0, 1, false, []⟩ 3 2).2).status = TileStatus.done ∧
    (doneStep (doneStep (redoPlacement ⟨TileStatus.parsing, 0, 1, false, []⟩ 3 2).2)).placements
      = [] ++ [(3, 1)] :=
  redoPlacement_deferred ⟨TileStatus.parsing, 0, 1, false, []⟩ 3 2 (by decide)


/-! ### Binary-search fast path for the `markers` source layer
Source: the patch in `src/unnamed/part_000` lines 85-167:
`featuresFind` binary-searches for the first feature whose composite key
`properties.d + properties.c * COLOR_OFFSET` is at least
`time + color * COLOR_OFFSET`, returning `null` when every key is smaller;
`sortLayerIntoBucketsBinarySearch` looks up a start and an end index and,
when `startIdx && !endIdx`, falls back to `endIdx = layer.length`, then
assigns `featuresSlice(layer, startIdx, endIdx)` to the bucket.  JavaScript
truthiness makes both `null` and `0` falsy, which the model mirrors with
`jsTruthy`; `null` coerces to `0` in the arithmetic of `featuresSlice`,
mirrored by `jsNum`. -/

def COLOR_OFFSET : Nat := 10000000000

/-- Feature of the `markers` source layer: only the `c` (color index) and
`d` (close date) properties participate in the fast path. -/
structure MarkerFeature where
  c : Nat
  d : Nat
  deriving Repr, DecidableEq

/-- Composite sort key `properties.d + properties.c * COLOR_OFFSET`. -/
def featureKey (f : MarkerFeature) : Nat :=
  f.d + f.c * COLOR_OFFSET

/-- Binary-search loop of `featuresFind` (`while (low !== high)`), with a
fuel argument for termination; the fuel passed by `featuresFind` strictly
exceeds the search-interval width, so it never runs out.  An out-of-range
probe (impossible while `low < high ≤ layer.length`) reads key 0. -/
def featuresFindLoop (layer : List MarkerFeature) (find : Nat) :
    Nat → Nat → Nat → Nat
  | 0, low, _ => low
  | fuel + 1, low, high =>
    if low = high then low
    else
      let mid := (low + high) / 2
      let key := match layer.get? mid with
        | some f => featureKey f
        | none => 0
      if key < find then featuresFindLoop layer find fuel (mid + 1) high
      else featuresFindLoop layer find fuel low mid

/-- Model of `featuresFind(layer, color, time)`: index of the first feature
whose composite key is at least `time + color * COLOR_OFFSET`, or `none`
(JS `null`) when the searched-for value is greater than all keys. -/
def featuresFind (layer : List MarkerFeature) (color time : Nat) : Option Nat :=
  let find := time + color * COLOR_OFFSET
  let low := featuresFindLoop layer find (layer.length + 1) 0 layer.length
  if low = layer.length then none else some low

/-- Model of `featuresSlice(layer, begin, end)`: the features at indices
`begin, ..., end - 1` (the JS loop reads `layer.feature(n + begin)` for
`n < end - begin`). -/
def featuresSlice (layer : List MarkerFeature) (b e : Nat) : List MarkerFeature :=
  (layer.drop b).take (e - b)

/-- Filter values extracted by `getFilters`: the color index and the
half-open close-date window. -/
structure FilterValues where
  colorIdx : Nat
  startTime : Nat
  endTime : Nat
  deriving Repr, DecidableEq

/-- JavaScript truthiness of a nullable number: `null` and `0` are falsy. -/
def jsTruthy : Option Nat → Bool
  | none => false
  | some n => n != 0

/-- JavaScript arithmetic coercion of a nullable number: `null` behaves as
`0`. -/
def jsNum : Option Nat → Nat
  | none => 0
  | some n => n

/-- Model of the body of `sortLayerIntoBucketsBinarySearch` for one bucket:
find the start and end indices, apply the `startIdx && !endIdx` fallback,
and slice. -/
def fastPathFeatures (layer : List MarkerFeature) (fv : FilterValues) :
    List MarkerFeature :=
  let startIdx := featuresFind layer fv.colorIdx fv.startTime
  let endIdx0 := featuresFind layer fv.colorIdx fv.endTime
  let endIdx := if jsTruthy startIdx && !(jsTruthy endIdx0) then some layer.length
                else endIdx0
  featuresSlice layer (jsNum startIdx) (jsNum endIdx)

/-- Single-feature `markers` layer exhibiting the truthiness gap: its only
feature has color 0 and close date 5. -/
def cexLayer : List MarkerFeature := [⟨0, 5⟩]

/-- Filter window `(0, 10]` on color 0: the start search finds index 0, the
end search finds nothing. -/
def cexFilter : FilterValues := ⟨0, 0, 10⟩

/-- Counterexample to C9 as stated: on `cexLayer`/`cexFilter` the start
search returns the non-null index 0 and the end search returns null, yet
the bucket receives the empty list, not the features from index 0 through
the end of the layer — JS `startIdx && !endIdx` is falsy at `startIdx === 0`,
so the fallback is skipped and `null` coerces to slice end 0. -/
theorem fastpath_zero_start_counterexample :
    featuresFind cexLayer cexFilter.colorIdx cexFilter.startTime = some 0 ∧
    featuresFind cexLayer cexFilter.colorIdx cexFilter.endTime = none ∧
    fastPathFeatures cexLayer cexFilter = [] ∧
    featuresSlice cexLayer 0 cexLayer.length = [⟨0, 5⟩] ∧
    fastPathFeatures cexLayer cexFilter ≠ featuresSlice cexLayer 0 cexLayer.length := by
  decide

/-- C9 amended: the silent `endIdx = layer.length` fallback fires whenever
the start search finds a non-zero (truthy) index and the end search finds
none, giving the bucket the features from the start index through the end
of the layer; when the found start index is 0 the fallback is skipped and
the bucket receives the empty list. -/
theorem fastpath_endIdx_fallback :
    ∀ (layer : List MarkerFeature) (fv : FilterValues) (k : Nat),
      featuresFind layer fv.colorIdx fv.startTime = some k →
      featuresFind layer fv.colorIdx fv.endTime = none →
      (k ≠ 0 → fastPathFeatures layer fv = featuresSlice layer k layer.length) ∧
      (k = 0 → fastPathFeatures layer fv = []) := by
  intro layer fv k hs he
  constructor
  · intro hk
    simp [fastPathFeatures, hs, he, jsTruthy, jsNum, hk]
  · intro hk
    subst hk
    simp [fastPathFeatures, hs, he, jsTruthy, jsNum, featuresSlice]

/-- Witness for the amended C9 at a concrete input: a two-feature layer
where the start search finds index 1 and the end search finds nothing. -/
theorem fastpath_endIdx_fallback_witness :
    fastPathFeatures [⟨0, 1⟩, ⟨0, 5⟩] ⟨0, 3, 10⟩
      = featuresSlice [⟨0, 1⟩, ⟨0, 5⟩] 1 ([⟨0, 1⟩, ⟨0, 5⟩] : List MarkerFeature).length :=
  (fastpath_endIdx_fallback [⟨0, 1⟩, ⟨0, 5⟩] ⟨0, 3, 10⟩ 1
    (by decide) (by decide)).1 (by decide)


/-! ### Feature tree serialization
Source: the `FeatureTree` constructor and `FeatureTree.prototype.serialize`
and `insert` in `src/js/data/feature_tree.js` lines 27-88.  `serialize`
packs the coordinate, the overscaling, `grid.toArrayBuffer()`, the
serialized feature-index array and the bucket layer-id table; constructing
a `FeatureTree` from that serialized object plus the raw tile bytes
rebuilds the grid and feature-index array from those buffers. -/

/-- Tile coordinate `(z, x, y)`. -/
structure TileCoord where
  z : Int
  x : Int
  y : Int
  deriving Repr, DecidableEq

/-- Bounding box `[minX, minY, maxX, maxY]` as accumulated by
`FeatureTree.prototype.insert`, whose mins start at `Infinity` (`⊤`) and
maxes at `-Infinity` (`⊥`). -/
abbrev BBox := WithTop Int × WithTop Int × WithBot Int × WithBot Int

/-- Modelled from the spec: the uniform `Grid` (`src/js/util/grid.js`) is
not under `src/`; per the spec it is "a coarse uniform grid over tile space
supporting bounding-box insert and range query" whose round trip through
`toArrayBuffer` preserves "grid ... contents ... exactly" (§8), so it is
modelled as the exact sequence of key/bounding-box insertions. -/
structure Grid where
  entries : List (Nat × BBox)
  deriving DecidableEq

/-- Serialized form of a grid (`grid.toArrayBuffer()`). -/
structure GridBuffer where
  data : List (Nat × BBox)
  deriving DecidableEq

/-- Bounding-box insert (`grid.insert(key, x1, y1, x2, y2)`). -/
def Grid.insert (g : Grid) (key : Nat) (box : BBox) : Grid :=
  ⟨g.entries ++ [(key, box)]⟩

/-- Modelled from the spec: `Grid.prototype.toArrayBuffer`, preserving the
grid contents exactly. -/
def Grid.toArrayBuffer (g : Grid) : GridBuffer :=
  ⟨g.entries⟩

/-- Modelled from the spec: the `new Grid(arrayBuffer)` deserializing
constructor, restoring the grid contents exactly. -/
def Grid.ofArrayBuffer (b : GridBuffer) : Grid :=
  ⟨b.data⟩

/-- Fixed-width feature index record `(featureIndex, sourceLayerIndex,
bucketIndex)` of the `FeatureIndexArray` struct array. -/
structure FeatureIndexRecord where
  featureIndex : Nat
  sourceLayerIndex : Nat
  bucketIndex : Nat
  deriving Repr, DecidableEq

/-- Serialized form of the feature-index struct array. -/
structure FeatureIndexArrayBuffer where
  data : List FeatureIndexRecord
  deriving DecidableEq

/-- Modelled from the spec: `StructArray.prototype.serialize`
(`src/js/util/struct_array.js` is not under `src/`), preserving the record
contents exactly. -/
def serializeFeatureIndexArray (l : List FeatureIndexRecord) : FeatureIndexArrayBuffer :=
  ⟨l⟩

/-- Modelled from the spec: the deserializing `FeatureIndexArray`
constructor, restoring the record contents exactly. -/
def deserializeFeatureIndexArray (b : FeatureIndexArrayBuffer) : List FeatureIndexRecord :=
  b.data

/-- Feature tree state that crosses the worker boundary: the spatial grid,
the feature-index record array, the bucket layer-id table, the tile
coordinate/overscaling, and the raw tile bytes used for lazy decoding. -/
structure FeatureTree where
  coord : TileCoord
  overscaling : ℚ
  grid : Grid
  featureIndexArray : List FeatureIndexRecord
  bucketLayerIDs : List (List String)
  rawTileData : List Nat
  deriving DecidableEq

/-- Serialized feature tree (the `data` object built by
`FeatureTree.prototype.serialize`; the raw tile bytes travel separately). -/
structure SerializedFeatureTree where
  coord : TileCoord
  overscaling : ℚ
  grid : GridBuffer
  featureIndexArray : FeatureIndexArrayBuffer
  bucketLayerIDs : List (List String)
  deriving DecidableEq

/-- Model of `FeatureTree.prototype.serialize`. -/
def FeatureTree.serialize (t : FeatureTree) : SerializedFeatureTree :=
  ⟨t.coord, t.overscaling, t.grid.toArrayBuffer,
   serializeFeatureIndexArray t.featureIndexArray, t.bucketLayerIDs⟩

/-- Model of the deserializing branch of the `FeatureTree` constructor
(`if (coord.grid) { ... }`), given the serialized object and the raw tile
bytes. -/
def FeatureTree.deserialize (s : SerializedFeatureTree) (rawTileData : List Nat) :
    FeatureTree :=
  ⟨s.coord, s.overscaling, Grid.ofArrayBuffer s.grid,
   deserializeFeatureIndexArray s.featureIndexArray, s.bucketLayerIDs, rawTileData⟩

/-- Bounding box of one geometry ring, folded exactly as the `insert` loop
does from `[Infinity, Infinity, -Infinity, -Infinity]`. -/
def ringBBox (ring : List (Int × Int)) : BBox :=
  ring.foldl
    (fun (b : BBox) p =>
      (min b.1 (p.1 : WithTop Int), min b.2.1 (p.2 : WithTop Int),
       max b.2.2.1 (p.1 : WithBot Int), max b.2.2.2 (p.2 : WithBot Int)))
    (⊤, ⊤, ⊥, ⊥)

/-- Model of `FeatureTree.prototype.insert`: append a feature-index record
keyed by its position, then insert one grid entry per geometry ring under
that key. -/
def FeatureTree.insert (t : FeatureTree) (geometry : List (List (Int × Int)))
    (featureIndex sourceLayerIndex bucketIndex : Nat) : FeatureTree :=
  let key := t.featureIndexArray.length
  { t with
    featureIndexArray :=
      t.featureIndexArray ++ [⟨featureIndex, sourceLayerIndex, bucketIndex⟩],
    grid := geometry.foldl (fun g ring => g.insert key (ringBBox ring)) t.grid }

/-- Arguments of one `insert` call. -/
structure InsertOp where
  geometry : List (List (Int × Int))
  featureIndex : Nat
  sourceLayerIndex : Nat
  bucketIndex : Nat

/-- Apply one `insert` call. -/
def applyInsert (t : FeatureTree) (op : InsertOp) : FeatureTree :=
  t.insert op.geometry op.featureIndex op.sourceLayerIndex op.bucketIndex

/-- C8: a feature tree populated by any sequence of `insert` calls survives
a serialize/deserialize round trip (given the same raw tile bytes) with its
grid contents and feature-index-record array preserved exactly — the
deserialized tree equals the original, so every query function applied to
it returns identical results. -/
theorem featureTree_serialize_roundtrip :
    ∀ (t0 : FeatureTree) (ops : List InsertOp),
      FeatureTree.deserialize (FeatureTree.serialize (ops.foldl applyInsert t0))
          (ops.foldl applyInsert t0).rawTileData
        = ops.foldl applyInsert t0 ∧
      ∀ (α : Type) (q : FeatureTree → α),
        q (FeatureTree.deserialize (FeatureTree.serialize (ops.foldl applyInsert t0))
            (ops.foldl applyInsert t0).rawTileData)
          = q (ops.foldl applyInsert t0) := by
  intro t0 ops
  have h : FeatureTree.deserialize
      (FeatureTree.serialize (ops.foldl applyInsert t0))
      (ops.foldl applyInsert t0).rawTileData = ops.foldl applyInsert t0 := rfl
  exact ⟨h, fun α q => congrArg q h⟩

end MapboxGL
